import Mathlib

/-!
# QtLog: category log files and size-based rollover

A shallow embedding of `src/log.cpp` (class `Log`): the rollover index scan
(`getAvailableLogFileIndex`), the category registry (`openLogFile`,
`cleanCategory`), message dispatch (`handleMessage`), maintenance (`postLog`),
initialisation (`init`) and the enable switch (`setUseLogs`).

Qt library calls used by the source are modelled from the Qt documentation:
`QDir::entryInfoList` with a name filter (wildcard matching, case-insensitive
because `QDir::CaseSensitive` is not passed; hidden files are left out and the
entries come sorted by name, ignoring case), `QString::section`,
`QString::toUInt`, `QString::arg` (place markers `%1`..`%99`, also those that
an earlier argument has brought in), `QFile::open/exists/remove/rename/size`.
Files are addressed by the canonical path the environment resolves a path to
(`Env.fileId`), so two file names can denote one file.
-/

namespace QtLog

/-! ## Constants of `log.cpp` -/

/-- `#define DEFAULT_LOG_EXTENSION ".log"`. -/
def DEFAULT_LOG_EXTENSION : String := ".log"

/-- `#define MAX_FILE_INDEX 100`. -/
def MAX_FILE_INDEX : Nat := 100

/-- `#define MAX_FILE_SIZE 2 * 500 * 1024`. -/
def MAX_FILE_SIZE : Nat := 2 * 500 * 1024

/-- Number of values of `quint32`. -/
def UINT32_SIZE : Nat := 2 ^ 32

/-! ## Qt name filters (wildcard patterns) -/

/-- One element of a Qt wildcard pattern: `?`, `*`, a bracketed set, or a
character that stands for itself. -/
inductive WildcardItem where
  | anyChar
  | anySeq
  | set (negated : Bool) (ranges : List (Char × Char))
  | lit (c : Char)
  deriving DecidableEq, Repr

/-- Characters that have a special meaning at the top level of a wildcard. -/
def isWildcardChar (c : Char) : Bool :=
  c == '*' || c == '?' || c == '['

/-- Wildcard pattern parser. The first argument is `none` at the top level and
`some (negated, ranges)` while inside a bracketed set. An unterminated set
makes the pattern invalid (`none`), and an invalid pattern matches nothing. -/
def parseItems : Option (Bool × List (Char × Char)) → List Char → Option (List WildcardItem)
  | none, [] => some []
  | some _, [] => none
  | none, c :: cs =>
    if c = '*' then (parseItems none cs).map (fun r => WildcardItem.anySeq :: r)
    else if c = '?' then (parseItems none cs).map (fun r => WildcardItem.anyChar :: r)
    else if c = '[' then
      match cs with
      | [] => none
      | d :: ds =>
        if d = '!' ∨ d = '^' then
          match ds with
          | [] => none
          | e :: es =>
            if e = ']' then parseItems (some (true, [(']', ']')])) es
            else parseItems (some (true, [])) (e :: es)
        else if d = ']' then parseItems (some (false, [(']', ']')])) ds
        else parseItems (some (false, [])) (d :: ds)
    else (parseItems none cs).map (fun r => WildcardItem.lit c :: r)
  | some (neg, rs), c :: cs =>
    if c = ']' then (parseItems none cs).map (fun r => WildcardItem.set neg rs.reverse :: r)
    else
      match cs with
      | [] => none
      | d :: ds =>
        if d = '-' then
          match ds with
          | [] => none
          | b :: rest =>
            if b = ']' then
              (parseItems none rest).map
                (fun r => WildcardItem.set neg (('-', '-') :: (c, c) :: rs).reverse :: r)
            else parseItems (some (neg, (c, b) :: rs)) rest
        else parseItems (some (neg, (c, c) :: rs)) (d :: ds)

/-- Does one pattern element accept one character? Comparison ignores the
case of ASCII letters: the filter flags of the source do not contain
`QDir::CaseSensitive`, so Qt matches the name filter case-insensitively. -/
def WildcardItem.accepts : WildcardItem → Char → Bool
  | .anyChar, _ => true
  | .anySeq, _ => true
  | .lit c, d => c.toLower == d.toLower
  | .set neg rs, d =>
    let inSet := rs.any (fun r =>
      (r.1.toNat ≤ d.toLower.toNat && d.toLower.toNat ≤ r.2.toNat) ||
      (r.1.toNat ≤ d.toUpper.toNat && d.toUpper.toNat ≤ r.2.toNat))
    if neg then !inSet else inSet

/-- Whole-string wildcard match of a parsed pattern against a file name. -/
def wildcardMatch : List WildcardItem → List Char → Bool
  | [], s => s.isEmpty
  | .anySeq :: ps, s => s.tails.any (fun t => wildcardMatch ps t)
  | _ :: _, [] => false
  | p :: ps, c :: s => p.accepts c && wildcardMatch ps s

/-- Does the file name pass the name filter? -/
def nameFilterMatches (filter name : String) : Bool :=
  match parseItems none filter.data with
  | some items => wildcardMatch items name.data
  | none => false

/-- The listing `QDir::entryInfoList(nameFilters, Files | NoSymLinks | NoDotAndDotDot)`.
`dirFiles` are the names of the regular, visible, non-symlink files of the
directory, in the order the directory yields them. -/
def entryInfoList (dirFiles : List String) (filter : String) : List String :=
  dirFiles.filter (fun f => nameFilterMatches filter f)

/-! ## `QString::section('.', -1)` and `QString::toUInt` -/

/-- The last `.`-separated section of a string: the text after the last `.`
(the whole string when it has no `.`). -/
def lastSection (s : String) : String :=
  String.mk (s.data.reverse.takeWhile (fun c => c != '.')).reverse

/-- Value of a list of decimal digits, most significant first. -/
def digitsValue (cs : List Char) : Nat :=
  cs.foldl (fun acc c => 10 * acc + (c.toNat - '0'.toNat)) 0

/-- Strip leading and trailing white space. -/
def trimChars (cs : List Char) : List Char :=
  ((cs.dropWhile Char.isWhitespace).reverse.dropWhile Char.isWhitespace).reverse

/-- `QString::toUInt(&ok)` in base 10: surrounding white space is ignored, one
leading `+` is accepted, then at least one decimal digit must follow and
nothing else; values that do not fit `quint32` fail. `none` is `ok == false`. -/
def toUInt (s : String) : Option Nat :=
  let t := trimChars s.data
  let ds := match t with
    | '+' :: r => r
    | r => r
  if ds ≠ [] ∧ ds.all Char.isDigit = true ∧ digitsValue ds < UINT32_SIZE then
    some (digitsValue ds)
  else none

/-! ## `Log::getAvailableLogFileIndex` -/

/-- One iteration of the `for` loop over the listed files
(`log.cpp` lines 223-237), with `quint32` wrap-around on `fileIndex + 1`. -/
def indexLoopStep (availableIndex : Nat) (fileName : String) : Nat :=
  let indexSection := lastSection fileName
  if indexSection ≠ "" then
    match toUInt indexSection with
    | some fileIndex =>
      if fileIndex ≥ availableIndex then (fileIndex + 1) % UINT32_SIZE else availableIndex
    | none => availableIndex
  else availableIndex

/-- `Log::getAvailableLogFileIndex(fileName)` over the files of the log folder. -/
def getAvailableLogFileIndex (dirFiles : List String) (fileName : String) : Nat :=
  let nameFilters := fileName ++ (DEFAULT_LOG_EXTENSION ++ ".*")
  let files := entryInfoList dirFiles nameFilters
  let availableIndex := files.foldl indexLoopStep 1
  if availableIndex > MAX_FILE_INDEX then 1 else availableIndex

/-! ## The rollover index in the words of the specification -/

/-- Specification wording of "the file matches `<category>.log.*`", the
category name taken as a literal: the file name begins with the exact string
`<category>.log.`. -/
def beginsWithCategoryLog (category f : String) : Bool :=
  (category ++ ".log.").data.isPrefixOf f.data

/-- The text after the last `.` of a name (the whole name when it has no `.`). -/
def textAfterLastDot (name : List Char) : List Char :=
  name.foldl (fun acc c => if c = '.' then [] else acc ++ [c]) []

/-- The value of a run of decimal digits, summed by place value from the right. -/
def decimalValue (digits : List Char) : Nat :=
  (digits.foldr (fun c acc => (acc.1 + (c.toNat - 48) * acc.2, acc.2 * 10)) (0, 1)).1

/-- Specification wording of "numeric suffix": the text after the last `.`
when it is an unsigned number, that is a non-empty run of decimal digits whose
value is at most 4294967295. -/
def specNumericSuffix (f : String) : Option Nat :=
  let suffix := textAfterLastDot f.data
  if suffix ≠ [] ∧ suffix.all Char.isDigit = true ∧ decimalValue suffix ≤ 4294967295 then
    some (decimalValue suffix)
  else none

/-- Specification wording: the largest numeric suffix among the files matching
`<category>.log.*`, `0` when no matching file has a numeric suffix. -/
def specLargestSuffix (dirFiles : List String) (category : String) : Nat :=
  ((dirFiles.filter (fun f => beginsWithCategoryLog category f)).filterMap
    specNumericSuffix).foldr max 0

/-- Specification wording: `max(existing suffixes) + 1`, wrapping back to `1`
when that would exceed `maxRolloverIndex`. -/
def specNextIndex (dirFiles : List String) (category : String) : Nat :=
  if specLargestSuffix dirFiles category + 1 > MAX_FILE_INDEX then 1
  else specLargestSuffix dirFiles category + 1

/-! ## The listing of the source -/

/-- What the name filter `<name>.log.*` of the source accepts when `name` has
no wildcard character: the names that begin with `<name>.log.` up to the case
of ASCII letters. This describes the code, not the specification. -/
def filterAccepts (name f : String) : Bool :=
  ((name ++ (DEFAULT_LOG_EXTENSION ++ ".")).data.map Char.toLower).isPrefixOf
    (f.data.map Char.toLower)

/-- The numeric suffixes of the files the source's own listing returns. -/
def listedSuffixes (dirFiles : List String) (fileName : String) : List Nat :=
  (entryInfoList dirFiles (fileName ++ (DEFAULT_LOG_EXTENSION ++ ".*"))).filterMap
    (fun f => toUInt (lastSection f))

/-! ## `QString::arg` -/

/-- A piece of a format string: a plain character, or a place marker `%N` or
`%LN` (one or two digits) with its number and its source text. -/
inductive ArgPiece where
  | text (c : Char)
  | marker (number : Nat) (source : List Char)
  deriving DecidableEq, Repr

/-- The value of a decimal digit. -/
def argDigit (c : Char) : Nat :=
  c.toNat - '0'.toNat

/-- The scan of `QString::arg` for place markers: `%`, an optional `L`, one
digit and, when a digit follows, a second one (ASCII digits). A `%` that
starts no marker is a plain character and the scan goes on right after it. -/
def argPieces : List Char → List ArgPiece
  | [] => []
  | c :: cs =>
    if c = '%' then
      match cs with
      | [] => [ArgPiece.text c]
      | d1 :: r1 =>
        if d1.isDigit then
          match r1 with
          | [] => [ArgPiece.marker (argDigit d1) [c, d1]]
          | d2 :: r2 =>
            if d2.isDigit then
              ArgPiece.marker (10 * argDigit d1 + argDigit d2) [c, d1, d2] :: argPieces r2
            else ArgPiece.marker (argDigit d1) [c, d1] :: argPieces (d2 :: r2)
        else if d1 = 'L' then
          match r1 with
          | [] => [ArgPiece.text c, ArgPiece.text d1]
          | e1 :: s1 =>
            if e1.isDigit then
              match s1 with
              | [] => [ArgPiece.marker (argDigit e1) [c, d1, e1]]
              | e2 :: s2 =>
                if e2.isDigit then
                  ArgPiece.marker (10 * argDigit e1 + argDigit e2) [c, d1, e1, e2] ::
                    argPieces s2
                else ArgPiece.marker (argDigit e1) [c, d1, e1] :: argPieces (e2 :: s2)
            else ArgPiece.text c :: ArgPiece.text d1 :: argPieces (e1 :: s1)
        else ArgPiece.text c :: argPieces (d1 :: r1)
    else ArgPiece.text c :: argPieces cs

/-- The lowest marker number of a scanned format string, if it has a marker. -/
def lowestMarker : List ArgPiece → Option Nat
  | [] => none
  | ArgPiece.text _ :: ps => lowestMarker ps
  | ArgPiece.marker n _ :: ps =>
    match lowestMarker ps with
    | none => some n
    | some m => some (min n m)

/-- Replace every marker with number `m` by `a`; the other markers stay as
they were written. -/
def fillPieces (m : Nat) (a : List Char) : List ArgPiece → List Char
  | [] => []
  | ArgPiece.text c :: ps => c :: fillPieces m a ps
  | ArgPiece.marker n source :: ps => (if n = m then a else source) ++ fillPieces m a ps

/-- `QString::arg(a)` on the format string `s`: every occurrence of the
lowest-numbered place marker is replaced by `a`; a string without a marker is
returned as it is. -/
def qstringArg (s a : String) : String :=
  match lowestMarker (argPieces s.data) with
  | none => s
  | some m => String.mk (fillPieces m a.data (argPieces s.data))

/-! ## Files, helpers and the dispatcher state -/

/-- `QtMsgType`. -/
inductive QtMsgType where
  | QtDebugMsg
  | QtWarningMsg
  | QtCriticalMsg
  | QtFatalMsg
  | QtInfoMsg
  deriving DecidableEq, Repr

/-- The outcomes of the file operations, decided by the environment.
`fileId path` is the file a path names: the canonical path the operating system
resolves it to (`.` and `..` components, links, letter case on a
case-insensitive file system). -/
structure Env where
  fileId : String → String
  mkpathOk : String → Bool
  openOk : String → Bool
  removeOk : String → Bool
  renameOk : String → String → Bool
  errorString : String → String

/-- The files on disk: canonical path and content. -/
abbrev FileSystem := List (String × String)

/-- `QFile::exists` for the file with canonical path `file`. -/
def fileExists (fs : FileSystem) (file : String) : Bool :=
  (fs.lookup file).isSome

/-- `QFile::size`: the byte size of the file, `0` when absent. -/
def fileSize (fs : FileSystem) (file : String) : Nat :=
  match fs.lookup file with
  | some content => content.utf8ByteSize
  | none => 0

/-- Append to an existing file (a write through an open append-mode handle). -/
def appendToFile (fs : FileSystem) (file data : String) : FileSystem :=
  fs.map (fun e => if e.1 = file then (e.1, e.2 ++ data) else e)

/-- Opening with `WriteOnly | Append` creates the file when it is absent and
keeps the content of an existing one. -/
def createFile (fs : FileSystem) (file : String) : FileSystem :=
  if fileExists fs file then fs else fs ++ [(file, "")]

/-- A successful `QFile::remove`. -/
def removeFile (fs : FileSystem) (file : String) : FileSystem :=
  fs.filter (fun e => e.1 ≠ file)

/-- A successful rename inside `QFile::rename`. -/
def renameFile (fs : FileSystem) (file newFile : String) : FileSystem :=
  fs.map (fun e => if e.1 = file then (newFile, e.2) else e)

/-- Lexicographic comparison of character sequences by character code. -/
def charsLess : List Char → List Char → Bool
  | [], [] => false
  | [], _ :: _ => true
  | _ :: _, [] => false
  | a :: as, b :: bs =>
    if a.toNat < b.toNat then true
    else if b.toNat < a.toNat then false
    else charsLess as bs

/-- `operator<` on `QString`, the order of the keys of a `QMap`. -/
def keyLess (a b : String) : Bool :=
  charsLess a.data b.data

/-- Insert a name into a list sorted by `QDir::Name | QDir::IgnoreCase`, after
the names that are not greater. -/
def insertByName (name : String) : List String → List String
  | [] => [name]
  | m :: ms =>
    if charsLess (name.data.map Char.toLower) (m.data.map Char.toLower) then name :: m :: ms
    else m :: insertByName name ms

/-- The default sort order of a `QDir`: by name, ignoring letter case. Names
that are equal up to case stay in directory order (Qt leaves their order
open). -/
def sortByName (names : List String) : List String :=
  names.foldl (fun acc name => insertByName name acc) []

/-- A directory entry that `QDir` lists only with `QDir::Hidden`: on Unix, a
name that starts with a dot. -/
def isHiddenName (name : List Char) : Bool :=
  match name with
  | '.' :: _ => true
  | _ => false

/-- The canonical path of a folder as the start of the canonical paths of its
entries: it ends with one `/`, except for the working directory, which is
empty. -/
def folderStart (folderId : String) : List Char :=
  if folderId.data = [] ∨ folderId.data.getLast? = some '/' then folderId.data
  else folderId.data ++ ['/']

/-- The entries `QDir(folder)` lists with `Files | NoSymLinks | NoDotAndDotDot`
and no name filter: the names of the visible files directly inside the folder,
in the default sort order. -/
def dirFileNames (env : Env) (fs : FileSystem) (folder : String) : List String :=
  sortByName (fs.filterMap (fun e =>
    if (folderStart (env.fileId folder)).isPrefixOf e.1.data then
      let name := e.1.data.drop (folderStart (env.fileId folder)).length
      if name.isEmpty || name.contains '/' || isHiddenName name then none
      else some (String.mk name)
    else none))

/-- A `CategoryHelper*` stored in the `categories` map. `null` is the value
`QMap::operator[]` inserts for a missing key; `live` is a helper whose `QFile`
has the given file name and is open or closed; `released` is a pointer whose
helper, file and stream have been deleted by `cleanCategory`. -/
inductive HelperPtr where
  | null
  | live (fileName : String) (isOpen : Bool)
  | released
  deriving DecidableEq, Repr

/-- `QMap<QString, CategoryHelper*>`: entries kept in key order. -/
abbrev Registry := List (String × HelperPtr)

/-- `QMap::contains`. -/
def registryContains (m : Registry) (key : String) : Bool :=
  (m.lookup key).isSome

/-- `categories[key] = value`: replace the entry or insert it in key order. -/
def registrySet : Registry → String → HelperPtr → Registry
  | [], key, value => [(key, value)]
  | (k, v) :: rest, key, value =>
    if key = k then (key, value) :: rest
    else if keyLess key k then (key, value) :: (k, v) :: rest
    else (k, v) :: registrySet rest key value

/-- The members of `Log` together with what the dispatcher has written:
the files, standard output, the `qCritical` reports and the emitted
`logMessageReceived` signals. -/
structure Log where
  categories : Registry
  isInitialized : Bool
  fullLogFolder : String
  defaultCategoryName : String
  useLogs : Bool
  handlerInstalled : Bool
  files : FileSystem
  console : List String
  errors : List String
  emitted : List (QtMsgType × String)
  deriving DecidableEq, Repr

/-- `Log::Log()`. -/
def Log.new (files : FileSystem) : Log :=
  { categories := [], isInitialized := false, fullLogFolder := ".",
    defaultCategoryName := "", useLogs := true, handlerInstalled := false,
    files := files, console := [], errors := [], emitted := [] }

/-- `QString("%1/%2%3").arg(fullLogFolder).arg(name).arg(DEFAULT_LOG_EXTENSION)`. -/
def logFilePath (folder name : String) : String :=
  qstringArg (qstringArg (qstringArg "%1/%2%3" folder) name) DEFAULT_LOG_EXTENSION

/-- `QString("%1/%2.log.%3").arg(fullLogFolder).arg(key).arg(QString::number(index))`. -/
def rolloverPath (folder key : String) (index : Nat) : String :=
  qstringArg (qstringArg (qstringArg "%1/%2.log.%3" folder) key) (toString index)

/-- `MAKE_COLOR_STRING(string, color)`. -/
def makeColorString (string : String) (color : Nat) : String :=
  qstringArg (qstringArg "\x1b[%1m%2\x1b[0m" (toString color)) string

/-- `Log::setUseLogs`. -/
def setUseLogs (s : Log) (use : Bool) : Log :=
  { s with useLogs := use }

/-- `Log::openLogFile`: returns the `bool` result and the new state. -/
def openLogFile (env : Env) (s : Log) (name : String) : Bool × Log :=
  let path := logFilePath s.fullLogFolder name
  if env.openOk path then
    (true, { s with files := createFile s.files (env.fileId path),
                    categories := registrySet s.categories name (HelperPtr.live path true) })
  else
    (false, { s with errors := s.errors ++
      [qstringArg (qstringArg "Log - Could not open file: %1 - Reason: %2" name)
        (env.errorString path)] })

/-- `Log::cleanCategory`. The map keeps the pointer it held: only the local
copy `helper` is set to `nullptr`. `none` is undefined behaviour (a second
delete through a released pointer). -/
def cleanCategory (s : Log) (category : String) : Option Log :=
  match s.categories.lookup category with
  | none => some { s with categories := registrySet s.categories category HelperPtr.null }
  | some HelperPtr.null => some s
  | some (HelperPtr.live _ _) =>
    some { s with categories := registrySet s.categories category HelperPtr.released }
  | some HelperPtr.released => none

/-- `(*helper->stream) << logMessage << Qt::endl` through a registry entry.
`none` is undefined behaviour: a null or released pointer is dereferenced. A
stream whose file is closed writes nothing. -/
def writeLine (env : Env) (s : Log) (ptr : Option HelperPtr) (logMessage : String) :
    Option Log :=
  match ptr with
  | some (HelperPtr.live fileName true) =>
    some { s with files := appendToFile s.files (env.fileId fileName) (logMessage ++ "\n") }
  | some (HelperPtr.live _ false) => some s
  | _ => none

/-- `Log::getAvailableLogFileIndex` on the files of `fullLogFolder`. -/
def Log.getAvailableLogFileIndex (env : Env) (s : Log) (fileName : String) : Nat :=
  QtLog.getAvailableLogFileIndex (dirFileNames env s.files s.fullLogFolder) fileName

/-- The result of `file->rename(newFileName)`. -/
inductive RenameResult where
  | renamed
  | refused
  | failedClosed
  deriving DecidableEq, Repr

/-- `QFile::rename`: refused without touching the file when the source is
absent or the destination exists; otherwise "the file is closed before it is
renamed" and the environment decides whether the rename itself succeeds. -/
def qfileRename (env : Env) (fs : FileSystem) (fileName newName : String) : RenameResult :=
  if fileName = newName then RenameResult.refused
  else if !fileExists fs (env.fileId fileName) then RenameResult.refused
  else if fileExists fs (env.fileId newName) then RenameResult.refused
  else if env.renameOk fileName newName then RenameResult.renamed
  else RenameResult.failedClosed

/-- Lines 263-271 of `log.cpp`: rename the file of the entry `key`; when the
rename succeeds, `cleanCategory(key)` and `openLogFile(key)`. -/
def renameAndReopen (env : Env) (s1 : Log) (key fileName newFileName : String) : Option Log :=
  match qfileRename env s1.files fileName newFileName with
  | RenameResult.renamed =>
    match cleanCategory
      { s1 with files := renameFile s1.files (env.fileId fileName) (env.fileId newFileName) }
      key with
    | some s2 => some (openLogFile env s2 key).2
    | none => none
  | RenameResult.refused =>
    some { s1 with errors := s1.errors ++ ["Log - Could not rename log file."] }
  | RenameResult.failedClosed =>
    some { s1 with
      categories := registrySet s1.categories key (HelperPtr.live fileName false),
      errors := s1.errors ++ ["Log - Could not rename log file."] }

/-- The body of the loop of `Log::postLog` for the entry `key`. -/
def rolloverCategory (env : Env) (s : Log) (key : String) : Option Log :=
  match s.categories.lookup key with
  | some (HelperPtr.live fileName _) =>
    if fileSize s.files (env.fileId fileName) > MAX_FILE_SIZE then
      let newFileName := rolloverPath s.fullLogFolder key (s.getAvailableLogFileIndex env key)
      let canContinue :=
        !(fileExists s.files (env.fileId newFileName)) || env.removeOk newFileName
      let s1 := if fileExists s.files (env.fileId newFileName) && env.removeOk newFileName
        then { s with files := removeFile s.files (env.fileId newFileName) } else s
      if canContinue then renameAndReopen env s1 key fileName newFileName
      else
        some { s1 with errors := s1.errors ++ ["Log - Could not delete existing log file."] }
    else some s
  | _ => none

/-- `Log::postLog`: the loop over the entries of `categories` in key order. -/
def postLog (env : Env) (s : Log) : Option Log :=
  (s.categories.map Prod.fst).foldlM (rolloverCategory env) s

/-- The severity code of a message type. -/
def severityCode : QtMsgType → String
  | .QtDebugMsg => " DBG "
  | .QtInfoMsg => " INF "
  | .QtWarningMsg => " WRN "
  | .QtCriticalMsg => " CRI "
  | .QtFatalMsg => " FAT "

/-- The line written to standard output for a message type. -/
def consoleLine (type : QtMsgType) (logMessage : String) : String :=
  match type with
  | .QtDebugMsg => makeColorString logMessage 32
  | .QtInfoMsg => logMessage
  | .QtWarningMsg => makeColorString logMessage 33
  | .QtCriticalMsg => makeColorString logMessage 31
  | .QtFatalMsg => makeColorString logMessage 31

/-- The formatted line of `Log::handleMessage`. `now` is the time stamp
`QDateTime::currentDateTime().toString(DEFAULT_TIME_FORMAT)`; `debugBuild`
is `QT_DEBUG`. -/
def formatLine (now : String) (debugBuild : Bool) (type : QtMsgType)
    (category file : String) (line : Int) (message : String) : String :=
  let location := if debugBuild
    then qstringArg (qstringArg " (Location: %1:%2)" file) (toString line) else ""
  now ++ (severityCode type ++ category ++ ": " ++ message ++ location)

/-- `Log::handleMessage` up to, and without, the final call of `postLog`. -/
def dispatch (env : Env) (now : String) (debugBuild : Bool) (s : Log) (type : QtMsgType)
    (category file : String) (line : Int) (message : String) : Option Log :=
  let logMessage := formatLine now debugBuild type category file line message
  let s1 := { s with console := s.console ++ [consoleLine type logMessage] }
  match writeLine env s1 (s1.categories.lookup s1.defaultCategoryName) logMessage with
  | none => none
  | some s2 =>
    let s3 := { s2 with emitted := s2.emitted ++ [(type, logMessage)] }
    if category ≠ "default" ∧ category ≠ "main" then
      if !registryContains s3.categories category then
        match openLogFile env s3 category with
        | (true, s4) => writeLine env s4 (s4.categories.lookup category) logMessage
        | (false, s4) => some s4
      else writeLine env s3 (s3.categories.lookup category) logMessage
    else some s3

/-- `Log::handleMessage`. `none` is undefined behaviour. -/
def handleMessage (env : Env) (now : String) (debugBuild : Bool) (s : Log) (type : QtMsgType)
    (category file _method : String) (line _version : Int) (message : String) : Option Log :=
  if message = "" then some s
  else if !s.useLogs then some s
  else
    match dispatch env now debugBuild s type category file line message with
    | some s1 => postLog env s1
    | none => none

/-- How `Log::init` can leave abnormally. -/
inductive InitFailure where
  | invalidArgument
  | fatal
  deriving DecidableEq, Repr

/-- `Log::init`. -/
def init (env : Env) (s : Log) (logPath defaultLogName : String) : Except InitFailure Log :=
  if logPath = "" then Except.error InitFailure.invalidArgument
  else if defaultLogName = "" then Except.error InitFailure.invalidArgument
  else
    let s1 := { s with defaultCategoryName := defaultLogName }
    if s1.isInitialized then Except.ok s1
    else
      let s2 := { s1 with fullLogFolder := logPath }
      if env.mkpathOk s2.fullLogFolder then
        match openLogFile env s2 s2.defaultCategoryName with
        | (true, s3) => Except.ok { s3 with handlerInstalled := true, isInitialized := true }
        | (false, _) => Except.error InitFailure.fatal
      else Except.error InitFailure.fatal

/-! ## Well-formed registries -/

/-- The keys of the `categories` map, in iteration order. -/
def registryKeys (s : Log) : List String :=
  s.categories.map Prod.fst

/-- No rollover of a category of `keys` touches the category file of `c`:
each category either has that very file as its own category file (and then
rolls over only when that file is above the size limit) or has none of its
rollover targets `0..MAX_FILE_INDEX` at that file. -/
def rolloverSpares (env : Env) (folder : String) (keys : List String) (c : String) : Bool :=
  keys.all (fun k =>
    env.fileId (logFilePath folder k) == env.fileId (logFilePath folder c) ||
      (List.range (MAX_FILE_INDEX + 1)).all (fun n =>
        env.fileId (rolloverPath folder k n) != env.fileId (logFilePath folder c)))

/-- The registry invariant: every entry is a live helper with an open file. -/
def RegistryInvariant (s : Log) : Prop :=
  ∀ e ∈ s.categories, ∃ fileName, e.2 = HelperPtr.live fileName true

/-- The components of a path, split at `/`. -/
def splitPath (cs : List Char) : List (List Char) :=
  cs.foldr (fun c acc =>
    if c = '/' then [] :: acc
    else match acc with
      | [] => [[c]]
      | h :: t => (c :: h) :: t) [[]]

/-- Drop empty and `.` components and resolve `..` against the components
before it; `stack` holds the components kept so far, last first. -/
def canonicalComponents : List (List Char) → List (List Char) → List (List Char)
  | stack, [] => stack.reverse
  | stack, c :: rest =>
    if c = [] ∨ c = ['.'] then canonicalComponents stack rest
    else if c = ['.', '.'] then canonicalComponents stack.tail rest
    else canonicalComponents (c :: stack) rest

/-- The canonical path on a case-sensitive file system without links: no
empty, `.` or `..` components. A relative path stays relative to the working
directory. -/
def canonicalPath (path : String) : String :=
  let body := String.mk (List.intercalate ['/'] (canonicalComponents [] (splitPath path.data)))
  if path.data.head? = some '/' then "/" ++ body else body

/-- An environment in which every file operation succeeds, on a case-sensitive
file system without links. -/
def okEnv : Env :=
  { fileId := canonicalPath, mkpathOk := fun _ => true, openOk := fun _ => true,
    removeOk := fun _ => true, renameOk := fun _ _ => true, errorString := fun _ => "" }

/-- A file content of 1024001 bytes, one byte above `MAX_FILE_SIZE`. -/
def bigContent : String :=
  String.mk (List.replicate 1024001 'x')

/-- An initialised dispatcher with log folder `/tmp/logs` and default category
`app`, whose default file has the given content. -/
def appState (content : String) : Log :=
  { categories := [("app", HelperPtr.live "/tmp/logs/app.log" true)],
    isInitialized := true, fullLogFolder := "/tmp/logs", defaultCategoryName := "app",
    useLogs := true, handlerInstalled := true,
    files := [("/tmp/logs/app.log", content)], console := [], errors := [], emitted := [] }

/-- The state `appState bigContent` after the write of
`handleMessage(QtInfoMsg, "default", ..., "hello")` and before the maintenance
pass. -/
def appBigDispatched : Log :=
  { appState (bigContent ++ "T INF default: hello\n") with
    console := ["T INF default: hello"],
    emitted := [(QtMsgType.QtInfoMsg, "T INF default: hello")] }

/-- An environment in which no file can be opened. -/
def noOpenEnv : Env :=
  { okEnv with openOk := fun _ => false }

/-- An environment in which no file can be renamed. -/
def noRenameEnv : Env :=
  { okEnv with renameOk := fun _ _ => false }

/-- The state reached from `appState bigContent` by a message whose rollover
renamed the default file but could not reopen it. -/
def appAfterFailedReopen : Log :=
  { appBigDispatched with
    categories := [("app", HelperPtr.released)],
    files := [("/tmp/logs/app.log.1", bigContent ++ "T INF default: hello\n")],
    errors := ["Log - Could not open file: app - Reason: "] }

/-- The state reached from `appState bigContent` by a message whose rollover
failed in the rename. -/
def appAfterFailedRename : Log :=
  { appBigDispatched with
    categories := [("app", HelperPtr.live "/tmp/logs/app.log" false)],
    errors := ["Log - Could not rename log file."] }

/-- The state `appAfterFailedRename` after the write of
`handleMessage(QtInfoMsg, "app", ..., "again")` and before the maintenance
pass: nothing reaches the file, which is closed. -/
def appAfterFailedRenameDispatched : Log :=
  { appAfterFailedRename with
    console := ["T INF default: hello", "T INF app: again"],
    emitted := [(QtMsgType.QtInfoMsg, "T INF default: hello"),
      (QtMsgType.QtInfoMsg, "T INF app: again")] }

/-- The state reached from `appAfterFailedRename` by one more message for the
category `app`, the rename failing again. -/
def appAfterFailedRenameAgain : Log :=
  { appAfterFailedRename with
    console := ["T INF default: hello", "T INF app: again"],
    emitted := [(QtMsgType.QtInfoMsg, "T INF default: hello"),
      (QtMsgType.QtInfoMsg, "T INF app: again")],
    errors := ["Log - Could not rename log file.", "Log - Could not rename log file."] }

/-- A dispatcher with default category `app` and the category `a%3`, whose
file, as `openLogFile` names it, has 1024001 bytes. -/
def percentState : Log :=
  { appState "" with
    categories := [("a%3", HelperPtr.live "/tmp/logs/a.log.log" true),
      ("app", HelperPtr.live "/tmp/logs/app.log" true)],
    files := [("/tmp/logs/app.log", ""), ("/tmp/logs/a.log.log", bigContent)] }

/-- The state `percentState` after a maintenance pass in which every file
operation succeeds. -/
def percentAfterRollover : Log :=
  { percentState with
    files := [("/tmp/logs/app.log", ""), ("/tmp/logs/a1.log.1", bigContent),
      ("/tmp/logs/a.log.log", "")] }

end QtLog

open QtLog

/-! ## Lemmas on wildcard matching -/

theorem parseItems_literal (cs rest : List Char)
    (h : ∀ c ∈ cs, isWildcardChar c = false) :
    parseItems none (cs ++ rest) =
      (parseItems none rest).map (fun r => cs.map WildcardItem.lit ++ r) := by
  induction cs with
  | nil =>
    rw [List.nil_append]
    cases hr : parseItems none rest <;> simp
  | cons c cs ih =>
    have hc : isWildcardChar c = false := h c (by simp)
    have hcs : ∀ d ∈ cs, isWildcardChar d = false := fun d hd => h d (by simp [hd])
    simp only [isWildcardChar, Bool.or_eq_false_iff, beq_eq_false_iff_ne, ne_eq] at hc
    obtain ⟨⟨h1, h2⟩, h3⟩ := hc
    have hstep : parseItems none (c :: (cs ++ rest)) =
        (parseItems none (cs ++ rest)).map (fun r => WildcardItem.lit c :: r) := by
      conv_lhs => unfold parseItems
      simp only [h1, h2, h3, if_false]
    rw [List.cons_append, hstep, ih hcs]
    cases hr : parseItems none rest <;> simp

theorem wildcardMatch_anySeq_last (s : List Char) :
    wildcardMatch [WildcardItem.anySeq] s = true := by
  simp only [wildcardMatch, List.any_eq_true]
  exact ⟨[], by simp, by simp [wildcardMatch]⟩

theorem wildcardMatch_literal_start (l s : List Char) :
    wildcardMatch (l.map WildcardItem.lit ++ [WildcardItem.anySeq]) s =
      (l.map Char.toLower).isPrefixOf (s.map Char.toLower) := by
  induction l generalizing s with
  | nil => simp [wildcardMatch_anySeq_last]
  | cons a l ih =>
    cases s with
    | nil => simp [wildcardMatch]
    | cons c s => simp [wildcardMatch, WildcardItem.accepts, ih, List.isPrefixOf]

theorem nameFilterMatches_literal (category f : String)
    (h : ∀ c ∈ category.data, isWildcardChar c = false) :
    nameFilterMatches (category ++ (DEFAULT_LOG_EXTENSION ++ ".*")) f =
      filterAccepts category f := by
  have hp : (category ++ (DEFAULT_LOG_EXTENSION ++ ".*")).data =
      (category.data ++ ['.', 'l', 'o', 'g', '.']) ++ ['*'] := by
    simp [String.data_append, DEFAULT_LOG_EXTENSION]
  have hw : ∀ c ∈ category.data ++ ['.', 'l', 'o', 'g', '.'], isWildcardChar c = false := by
    intro c hc
    rcases List.mem_append.1 hc with hc | hc
    · exact h c hc
    · simp only [List.mem_cons, List.mem_singleton, List.not_mem_nil, or_false] at hc
      rcases hc with rfl | rfl | rfl | rfl | rfl <;> decide
  have hq : (category ++ (DEFAULT_LOG_EXTENSION ++ ".")).data =
      category.data ++ ['.', 'l', 'o', 'g', '.'] := by
    simp [String.data_append, DEFAULT_LOG_EXTENSION]
  have hstar : parseItems none ['*'] = some [WildcardItem.anySeq] := by decide
  simp only [nameFilterMatches, filterAccepts, hp, hq, parseItems_literal _ _ hw, hstar,
    Option.map_some', wildcardMatch_literal_start]

/-! ## Lemmas on the index loop -/

theorem toUInt_lt (s : String) (v : Nat) (h : toUInt s = some v) : v < UINT32_SIZE := by
  simp only [toUInt] at h
  split at h
  · rename_i hc
    cases h
    exact hc.2.2
  · cases h

theorem toUInt_empty : toUInt "" = none := by decide

/-- The loop over the listed files only depends on their numeric suffixes. -/
theorem foldl_indexLoopStep_eq (l : List String) (a : Nat) :
    l.foldl indexLoopStep a =
      (l.filterMap (fun f => toUInt (lastSection f))).foldl
        (fun acc v => if v ≥ acc then (v + 1) % UINT32_SIZE else acc) a := by
  induction l generalizing a with
  | nil => rfl
  | cons f l ih =>
    rw [List.foldl_cons, ih]
    cases hv : toUInt (lastSection f) with
    | none =>
      have : indexLoopStep a f = a := by simp [indexLoopStep, hv]
      rw [this]
      simp only [List.filterMap_cons, hv]
    | some v =>
      have hne : lastSection f ≠ "" := by
        intro he
        rw [he, toUInt_empty] at hv
        cases hv
      have : indexLoopStep a f = if v ≥ a then (v + 1) % UINT32_SIZE else a := by
        simp [indexLoopStep, hv, hne]
      rw [this]
      simp only [List.filterMap_cons, hv, List.foldl_cons]

theorem foldl_suffix_noOverflow (vs : List Nat) (a : Nat) (ha : 1 ≤ a)
    (hM : vs.foldr max 0 + 1 < UINT32_SIZE) :
    vs.foldl (fun acc v => if v ≥ acc then (v + 1) % UINT32_SIZE else acc) a =
      max a (vs.foldr max 0 + 1) := by
  induction vs generalizing a with
  | nil => simp; omega
  | cons v vs ih =>
    simp only [List.foldr_cons] at hM
    have hv : (v + 1) % UINT32_SIZE = v + 1 := Nat.mod_eq_of_lt (by omega)
    simp only [List.foldl_cons, List.foldr_cons, hv]
    by_cases hva : v ≥ a
    · rw [if_pos hva, ih (v + 1) (by omega) (by omega)]
      omega
    · rw [if_neg hva, ih a ha (by omega)]
      omega

theorem getAvailableLogFileIndex_eq (dirFiles : List String) (fileName : String) :
    getAvailableLogFileIndex dirFiles fileName =
      (if (listedSuffixes dirFiles fileName).foldl
            (fun acc v => if v ≥ acc then (v + 1) % UINT32_SIZE else acc) 1 > MAX_FILE_INDEX
        then 1
        else (listedSuffixes dirFiles fileName).foldl
            (fun acc v => if v ≥ acc then (v + 1) % UINT32_SIZE else acc) 1) := by
  simp only [getAvailableLogFileIndex, listedSuffixes, foldl_indexLoopStep_eq]

/-- The nearby statement of the index claim: on a directory where the name
filter of the source lists exactly the files that begin with `<category>.log.`
and `toUInt` reads the suffixes as the specification does, a largest numeric
suffix `m` below `MAX_FILE_INDEX` gives the index `m + 1`. -/
theorem next_index_on_literal_listing (dirFiles : List String) (category : String)
    (hfilter : ∀ f ∈ dirFiles,
      nameFilterMatches (category ++ (DEFAULT_LOG_EXTENSION ++ ".*")) f =
        beginsWithCategoryLog category f)
    (hparse : ∀ f ∈ dirFiles, toUInt (lastSection f) = specNumericSuffix f)
    (hm : specLargestSuffix dirFiles category < MAX_FILE_INDEX) :
    getAvailableLogFileIndex dirFiles category = specLargestSuffix dirFiles category + 1 := by
  have hM : MAX_FILE_INDEX = 100 := rfl
  have hU : UINT32_SIZE = 4294967296 := by decide
  have hl : listedSuffixes dirFiles category =
      (dirFiles.filter (fun f => beginsWithCategoryLog category f)).filterMap
        specNumericSuffix := by
    unfold listedSuffixes entryInfoList
    rw [List.filter_congr hfilter]
    apply List.filterMap_congr
    intro f hf
    exact hparse f (List.mem_of_mem_filter hf)
  rw [getAvailableLogFileIndex_eq, hl]
  unfold specLargestSuffix at hm ⊢
  rw [foldl_suffix_noOverflow _ 1 (le_refl 1) (by omega)]
  rw [if_neg (by omega)]
  omega

/-! ## Lemmas on files and on the registry -/

/-- A category whose file is not above the size limit is left alone. -/
theorem rolloverCategory_small (env : Env) (s : Log) (key fileName : String) (o : Bool)
    (hl : s.categories.lookup key = some (HelperPtr.live fileName o))
    (hs : fileSize s.files (env.fileId fileName) ≤ MAX_FILE_SIZE) :
    rolloverCategory env s key = some s := by
  unfold rolloverCategory
  rw [hl]
  simp only
  rw [if_neg (by omega)]

theorem handleMessage_eq_postLog (env : Env) (now : String) (debugBuild : Bool) (s u : Log)
    (type : QtMsgType) (category file method : String) (line version : Int) (message : String)
    (hen : s.useLogs = true) (hmsg : message ≠ "")
    (hu : dispatch env now debugBuild s type category file line message = some u) :
    handleMessage env now debugBuild s type category file method line version message =
      postLog env u := by
  unfold handleMessage
  rw [if_neg hmsg, hen]
  simp only [Bool.not_true, Bool.false_eq_true, if_false, hu]

theorem handleMessage_undefined (env : Env) (now : String) (debugBuild : Bool) (s : Log)
    (type : QtMsgType) (category file method : String) (line version : Int) (message : String)
    (hen : s.useLogs = true) (hmsg : message ≠ "")
    (hd : s.categories.lookup s.defaultCategoryName = some HelperPtr.released ∨
      s.categories.lookup s.defaultCategoryName = some HelperPtr.null ∨
      s.categories.lookup s.defaultCategoryName = none) :
    handleMessage env now debugBuild s type category file method line version message = none := by
  unfold handleMessage
  rw [if_neg hmsg, hen]
  simp only [Bool.not_true, Bool.false_eq_true, if_false]
  have hdisp : dispatch env now debugBuild s type category file line message = none := by
    unfold dispatch
    rcases hd with h | h | h <;> simp only [h, writeLine]
  rw [hdisp]

theorem utf8ByteSize_append (a b : String) :
    (a ++ b).utf8ByteSize = a.utf8ByteSize + b.utf8ByteSize := by
  have h : a ++ b = String.mk (a.data ++ b.data) := String.ext (by simp [String.data_append])
  rw [h, String.utf8ByteSize_mk, String.utf8Len_append]
  rfl

theorem utf8Len_replicate_x (n : Nat) : String.utf8Len (List.replicate n 'x') = n := by
  induction n with
  | zero => rfl
  | succ n ih =>
    rw [List.replicate_succ, String.utf8Len_cons, ih]
    rfl

theorem bigContent_size : bigContent.utf8ByteSize = 1024001 := by
  unfold bigContent
  rw [String.utf8ByteSize_mk, utf8Len_replicate_x]

theorem postLog_single (env : Env) (s : Log) (k : String) (h : registryKeys s = [k]) :
    postLog env s = rolloverCategory env s k := by
  unfold postLog
  have h2 : List.map Prod.fst s.categories = [k] := h
  rw [h2, List.foldlM_cons]
  cases rolloverCategory env s k <;> rfl

theorem postLog_pair (env : Env) (s s1 : Log) (k1 k2 : String)
    (h : registryKeys s = [k1, k2]) (h1 : rolloverCategory env s k1 = some s1) :
    postLog env s = rolloverCategory env s1 k2 := by
  unfold postLog
  have h2 : List.map Prod.fst s.categories = [k1, k2] := h
  rw [h2, List.foldlM_cons, h1]
  show [k2].foldlM (rolloverCategory env) s1 = rolloverCategory env s1 k2
  rw [List.foldlM_cons]
  cases rolloverCategory env s1 k2 <;> rfl

/-- An oversized category file whose rollover target does not exist goes
straight to the rename. -/
theorem rolloverCategory_big_noTarget (env : Env) (s : Log) (key fileName : String) (o : Bool)
    (hl : s.categories.lookup key = some (HelperPtr.live fileName o))
    (hs : fileSize s.files (env.fileId fileName) > MAX_FILE_SIZE)
    (hE : fileExists s.files
      (env.fileId (rolloverPath s.fullLogFolder key (s.getAvailableLogFileIndex env key))) =
        false) :
    rolloverCategory env s key =
      renameAndReopen env s key fileName
        (rolloverPath s.fullLogFolder key (s.getAvailableLogFileIndex env key)) := by
  unfold rolloverCategory
  rw [hl]
  simp only
  rw [if_pos hs]
  simp only [hE, Bool.not_false, Bool.true_or, Bool.false_and, Bool.false_eq_true, if_false,
    if_true]

/-- When the existing rollover target cannot be deleted, the loop step only
reports the error: registry and files are as before. -/
theorem rolloverCategory_deleteFailed (env : Env) (s : Log) (key fileName : String) (o : Bool)
    (hl : s.categories.lookup key = some (HelperPtr.live fileName o))
    (hs : fileSize s.files (env.fileId fileName) > MAX_FILE_SIZE)
    (hE : fileExists s.files
      (env.fileId (rolloverPath s.fullLogFolder key (s.getAvailableLogFileIndex env key))) =
        true)
    (hR : env.removeOk
      (rolloverPath s.fullLogFolder key (s.getAvailableLogFileIndex env key)) = false) :
    rolloverCategory env s key =
      some { s with errors := s.errors ++ ["Log - Could not delete existing log file."] } := by
  unfold rolloverCategory
  rw [hl]
  simp only
  rw [if_pos hs]
  simp only [hE, hR, Bool.not_true, Bool.or_false, Bool.and_false, Bool.false_eq_true, if_false]

theorem appBigDispatched_size :
    fileSize appBigDispatched.files "/tmp/logs/app.log" > MAX_FILE_SIZE := by
  show (bigContent ++ "T INF default: hello\n").utf8ByteSize > MAX_FILE_SIZE
  rw [utf8ByteSize_append, bigContent_size]
  decide

theorem percentState_size :
    fileSize percentState.files "/tmp/logs/a.log.log" > MAX_FILE_SIZE := by
  show bigContent.utf8ByteSize > MAX_FILE_SIZE
  rw [bigContent_size]
  decide

/-- A message whose category is the default category name (and not `default`
or `main`) is written twice to the default file. -/
theorem default_name_category_written_twice :
    (handleMessage okEnv "T" false (appState "") QtMsgType.QtInfoMsg "app" "f.cpp" "m" 1 0
      "hello").map (fun t => t.files) =
      some [("/tmp/logs/app.log", "T INF app: hello\nT INF app: hello\n")] := by
  decide

/-- A message for the category `./app`, whose category file
`/tmp/logs/./app.log` is the default file under another name, is written
twice to the default file as well, and the registry then holds two helpers on
that one file. -/
theorem aliased_category_written_twice :
    (handleMessage okEnv "T" false (appState "") QtMsgType.QtInfoMsg "./app" "f.cpp" "m" 1 0
      "hello").map (fun t => (t.files, registryKeys t)) =
      some ([("/tmp/logs/app.log", "T INF ./app: hello\nT INF ./app: hello\n")],
        ["./app", "app"]) ∧
    rolloverSpares okEnv "/tmp/logs" ["./app", "app"] "app" = true := by
  decide

/-- The maintenance pass on the sample state with the category `a%3`. -/
theorem postLog_percentState :
    postLog okEnv percentState = some percentAfterRollover := by
  have h1 : rolloverCategory okEnv percentState "a%3" = some percentAfterRollover := by
    rw [rolloverCategory_big_noTarget okEnv percentState "a%3" "/tmp/logs/a.log.log" true rfl
      percentState_size rfl]
    rfl
  rw [postLog_pair okEnv percentState percentAfterRollover "a%3" "app" rfl h1]
  exact rolloverCategory_small okEnv percentAfterRollover "app" "/tmp/logs/app.log" true rfl
    (by decide)

/-! ## The rollover index -/

/-- C1: the code at the failing input. The category `foo` has no wildcard
character and the directory holds the single file `FOO.log.7`, which does not
begin with `foo.log.`: no file matches, the largest numeric suffix is `0` and
the claim gives `0 + 1 = 1`. The name filter of the source is matched without
regard to letter case, lists `FOO.log.7`, and `getAvailableLogFileIndex`
returns `8`. On the three directories the claim names the source returns `5`,
`2` and `1`, as the claim and its literal reading say. -/
theorem C1_case_variant_file_raises_index :
    (∀ c ∈ "foo".data, isWildcardChar c = false) ∧
    beginsWithCategoryLog "foo" "FOO.log.7" = false ∧
    specLargestSuffix ["FOO.log.7"] "foo" = 0 ∧
    specNextIndex ["FOO.log.7"] "foo" = 1 ∧
    getAvailableLogFileIndex ["FOO.log.7"] "foo" = 8 ∧
    specNextIndex ["foo.log.1", "foo.log.2", "foo.log.4"] "foo" = 5 ∧
    getAvailableLogFileIndex ["foo.log.1", "foo.log.2", "foo.log.4"] "foo" = 5 ∧
    specNextIndex ["test.log", "test.log.1"] "test" = 2 ∧
    getAvailableLogFileIndex ["test.log", "test.log.1"] "test" = 2 ∧
    specNextIndex [] "test" = 1 ∧
    getAvailableLogFileIndex [] "test" = 1 := by
  decide

/-- C2: the code at the failing input. With the single file
`foo.log.4294967295` the largest numeric suffix is at least `MAX_FILE_INDEX`,
yet `fileIndex + 1` wraps to `0` in `quint32` and `getAvailableLogFileIndex`
returns `0`, outside `1..MAX_FILE_INDEX`; a later file then raises the result
again, so `{foo.log.4294967295, foo.log.5}` gives `6`, while `foo.log.100`
alone gives `1`. -/
theorem C2_index_wraps_to_zero :
    specLargestSuffix ["foo.log.4294967295"] "foo" = 4294967295 ∧
    getAvailableLogFileIndex ["foo.log.4294967295"] "foo" = 0 ∧
    getAvailableLogFileIndex ["foo.log.4294967295", "foo.log.5"] "foo" = 6 ∧
    getAvailableLogFileIndex ["foo.log.100"] "foo" = 1 := by
  decide

/-- C8: the code at the failing inputs. The category name is used as a Qt
name filter, so a rotated file of another category changes the index: with
`FOO.log.7` in the directory the index of `foo` is `8` instead of `1`, and
with `ab.log.3` the index of the category `a*` is `4`, although neither file
name begins with `<category>.log.`. -/
theorem C8_foreign_file_changes_index :
    getAvailableLogFileIndex [] "foo" = 1 ∧
    getAvailableLogFileIndex ["FOO.log.7"] "foo" = 8 ∧
    "foo.log.".data.isPrefixOf "FOO.log.7".data = false ∧
    getAvailableLogFileIndex [] "a*" = 1 ∧
    getAvailableLogFileIndex ["ab.log.3"] "a*" = 4 ∧
    "a*.log.".data.isPrefixOf "ab.log.3".data = false := by
  decide

/-! ## Initialisation and the enable switch -/

/-- C3: the code at the failing input. After `init("/tmp/logs", "app")` a
second `init("/tmp/other", "other")` returns normally but has already
assigned `defaultCategoryName`: the state differs from the one before the
call, and the next `handleMessage` dereferences the null entry that
`categories["other"]` yields (undefined behaviour, `none`), where before the
second call it wrote to `app.log`. -/
theorem C3_second_init_overwrites_default_name :
    init okEnv (Log.new []) "/tmp/logs" "app" = Except.ok (appState "") ∧
    init okEnv (appState "") "/tmp/other" "other" =
      Except.ok { appState "" with defaultCategoryName := "other" } ∧
    ({ appState "" with defaultCategoryName := "other" } : Log) ≠ appState "" ∧
    (handleMessage okEnv "T" false (appState "") QtMsgType.QtInfoMsg "net" "f.cpp" "m" 1 0
      "hello").isSome = true ∧
    handleMessage okEnv "T" false { appState "" with defaultCategoryName := "other" }
      QtMsgType.QtInfoMsg "net" "f.cpp" "m" 1 0 "hello" = none := by
  refine ⟨rfl, rfl, by decide, by decide, by decide⟩

/-- C7: a `handleMessage` call with an empty message, or with logging
disabled, returns the state it was given: files, registry, console output and
emitted signals are unchanged. `setUseLogs` assigns only `useLogs`, so
disabling and enabling again gives the state `setUseLogs s true`, which is
the original state when logging was enabled. -/
theorem C7_noop_when_empty_or_disabled (env : Env) (now : String) (debugBuild : Bool)
    (s : Log) (type : QtMsgType) (category file method : String) (line version : Int)
    (message : String) (h : message = "" ∨ s.useLogs = false) :
    handleMessage env now debugBuild s type category file method line version message = some s ∧
    (∀ b, (setUseLogs s b).useLogs = b ∧ (setUseLogs s b).categories = s.categories ∧
      (setUseLogs s b).files = s.files ∧ (setUseLogs s b).console = s.console ∧
      (setUseLogs s b).emitted = s.emitted ∧ (setUseLogs s b).errors = s.errors ∧
      (setUseLogs s b).fullLogFolder = s.fullLogFolder ∧
      (setUseLogs s b).defaultCategoryName = s.defaultCategoryName ∧
      (setUseLogs s b).isInitialized = s.isInitialized ∧
      (setUseLogs s b).handlerInstalled = s.handlerInstalled) ∧
    setUseLogs (setUseLogs s false) true = setUseLogs s true ∧
    (s.useLogs = true → setUseLogs (setUseLogs s false) true = s) := by
  refine ⟨?_, fun b => ⟨rfl, rfl, rfl, rfl, rfl, rfl, rfl, rfl, rfl, rfl⟩, rfl, ?_⟩
  · unfold handleMessage
    rcases h with h | h
    · rw [if_pos h]
    · by_cases hm : message = ""
      · rw [if_pos hm]
      · rw [if_neg hm, h]
        rfl
  · intro hu
    cases s
    simp only [setUseLogs] at hu ⊢
    subst hu
    rfl

/-- Witness of C7: an empty message, and a message while logging is disabled,
leave the sample state as it is. -/
theorem C7_noop_when_empty_or_disabled_witness :
    handleMessage okEnv "T" false (appState "") QtMsgType.QtInfoMsg "net" "f.cpp" "m" 1 0 "" =
      some (appState "") ∧
    handleMessage okEnv "T" false (setUseLogs (appState "") false) QtMsgType.QtInfoMsg "net"
      "f.cpp" "m" 1 0 "hello" = some (setUseLogs (appState "") false) :=
  ⟨(C7_noop_when_empty_or_disabled okEnv "T" false (appState "") QtMsgType.QtInfoMsg "net"
      "f.cpp" "m" 1 0 "" (Or.inl rfl)).1,
    (C7_noop_when_empty_or_disabled okEnv "T" false (setUseLogs (appState "") false)
      QtMsgType.QtInfoMsg "net" "f.cpp" "m" 1 0 "hello" (Or.inr rfl)).1⟩

/-! ## Rollover -/

/-- C6: the code at the failing input. For the category `a%3`, `openLogFile`
builds the file name with chained `QString::arg` calls and opens
`/tmp/logs/a.log.log`; that file is above `MAX_FILE_SIZE`, the index is `1`
and removal, rename and reopen all succeed. After `postLog` there is no file
at `<logDirectory>/<category>.log.<index>` = `/tmp/logs/a%3.log.1` and none at
`<logDirectory>/<category>.log` = `/tmp/logs/a%3.log`: the old content is at
`/tmp/logs/a1.log.1` and the fresh file is `/tmp/logs/a.log.log`. -/
theorem C6_percent_name_rolls_over_elsewhere :
    (openLogFile okEnv (appState "") "a%3").2.categories.lookup "a%3" =
      some (HelperPtr.live "/tmp/logs/a.log.log" true) ∧
    percentState.categories.lookup "a%3" =
      some (HelperPtr.live "/tmp/logs/a.log.log" true) ∧
    fileSize percentState.files "/tmp/logs/a.log.log" > MAX_FILE_SIZE ∧
    percentState.getAvailableLogFileIndex okEnv "a%3" = 1 ∧
    rolloverPath "/tmp/logs" "a%3" 1 = "/tmp/logs/a1.log.1" ∧
    postLog okEnv percentState = some percentAfterRollover ∧
    percentAfterRollover.files.lookup "/tmp/logs/a%3.log.1" = none ∧
    percentAfterRollover.files.lookup "/tmp/logs/a%3.log" = none ∧
    percentAfterRollover.files.lookup "/tmp/logs/a1.log.1" = some bigContent ∧
    percentAfterRollover.files.lookup "/tmp/logs/a.log.log" = some "" :=
  ⟨rfl, rfl, percentState_size, rfl, rfl, postLog_percentState, rfl, rfl, rfl, rfl⟩

/-! ## Failed rollovers -/

/-- C9: the code at the failing input. The default file `app.log` of
`appState bigContent` is above `MAX_FILE_SIZE` after the write, there is no
file at the rollover target, and the rename fails. `QFile::rename` has closed
the file by then, so `handleMessage` leaves the entry of `app` as a helper
whose file is closed; the next `handleMessage` for the category `app` returns
with the file `app.log` unchanged: the line `again` is appended nowhere. -/
theorem C9_failed_rename_closes_the_file :
    handleMessage noRenameEnv "T" false (appState bigContent) QtMsgType.QtInfoMsg "default"
      "f.cpp" "m" 1 0 "hello" = some appAfterFailedRename ∧
    (appState bigContent).categories.lookup "app" =
      some (HelperPtr.live "/tmp/logs/app.log" true) ∧
    appAfterFailedRename.categories.lookup "app" =
      some (HelperPtr.live "/tmp/logs/app.log" false) ∧
    handleMessage noRenameEnv "T" false appAfterFailedRename QtMsgType.QtInfoMsg "app"
      "f.cpp" "m" 2 0 "again" = some appAfterFailedRenameAgain ∧
    appAfterFailedRenameAgain.files = appAfterFailedRename.files ∧
    appAfterFailedRename.files = [("/tmp/logs/app.log", bigContent ++ "T INF default: hello\n")] := by
  refine ⟨?_, rfl, rfl, ?_, rfl, rfl⟩
  · rw [handleMessage_eq_postLog noRenameEnv "T" false (appState bigContent) appBigDispatched
      QtMsgType.QtInfoMsg "default" "f.cpp" "m" 1 0 "hello" rfl (by decide) rfl,
      postLog_single noRenameEnv appBigDispatched "app" rfl,
      rolloverCategory_big_noTarget noRenameEnv appBigDispatched "app" "/tmp/logs/app.log"
        true rfl appBigDispatched_size rfl]
    rfl
  · rw [handleMessage_eq_postLog noRenameEnv "T" false appAfterFailedRename
      appAfterFailedRenameDispatched QtMsgType.QtInfoMsg "app" "f.cpp" "m" 2 0 "again" rfl
      (by decide) rfl,
      postLog_single noRenameEnv appAfterFailedRenameDispatched "app" rfl,
      rolloverCategory_big_noTarget noRenameEnv appAfterFailedRenameDispatched "app"
        "/tmp/logs/app.log" false rfl appBigDispatched_size rfl]
    rfl

/-- C10: the code at the failing input. From `init` in a folder whose
`app.log` is already above `MAX_FILE_SIZE`, one `handleMessage` whose rollover
renames the file and then fails to reopen it returns a state whose registry
still holds the entry of `app`, now a released pointer: the registry invariant
is broken, and the next `handleMessage` dereferences that pointer (undefined
behaviour, `none`). -/
theorem C10_failed_reopen_leaves_released_entry :
    init okEnv (Log.new [("/tmp/logs/app.log", bigContent)]) "/tmp/logs" "app" =
      Except.ok (appState bigContent) ∧
    handleMessage noOpenEnv "T" false (appState bigContent) QtMsgType.QtInfoMsg "default"
      "f.cpp" "m" 1 0 "hello" = some appAfterFailedReopen ∧
    appAfterFailedReopen.categories = [("app", HelperPtr.released)] ∧
    ¬ RegistryInvariant appAfterFailedReopen ∧
    handleMessage okEnv "T" false appAfterFailedReopen QtMsgType.QtInfoMsg "default" "f.cpp"
      "m" 2 0 "again" = none := by
  refine ⟨rfl, ?_, rfl, ?_, ?_⟩
  · rw [handleMessage_eq_postLog noOpenEnv "T" false (appState bigContent) appBigDispatched
      QtMsgType.QtInfoMsg "default" "f.cpp" "m" 1 0 "hello" rfl (by decide) rfl,
      postLog_single noOpenEnv appBigDispatched "app" rfl,
      rolloverCategory_big_noTarget noOpenEnv appBigDispatched "app" "/tmp/logs/app.log"
        true rfl appBigDispatched_size rfl]
    rfl
  · intro h
    obtain ⟨f, hf⟩ := h ("app", HelperPtr.released) (List.mem_cons_self _ _)
    cases hf
  · exact handleMessage_undefined okEnv "T" false appAfterFailedReopen QtMsgType.QtInfoMsg
      "default" "f.cpp" "m" 2 0 "again" rfl (by decide) (Or.inl rfl)

/-! ## Claims on message dispatch -/

